import Mathlib

/-!
Verification development for the monthly fund-report pipeline
(`src/main.py` of report-small-stocks).

The Python source is shallowly embedded: pure string manipulation is
modelled over `List Char`, external collaborators (HTTP transport, the
PDF/HTML parsing libraries, the CSV file) are modelled as pre-parsed
inputs carried by a `World` structure, and Python exceptions are
modelled with `Except`.  Machine-level details that the source never
exercises (full Unicode case tables, every Unicode whitespace code
point) are modelled over the character repertoire the program actually
handles; each such spot carries a comment.
-/

set_option maxRecDepth 100000
set_option linter.unusedVariables false

namespace ReportSmallStocks

/-! ## Character predicates and maps

`isPySpace` models the character set matched by Python's `str.strip()`
and by `re` `\s` in Unicode mode; `pyIsDigit` models `\d` (ASCII and
full-width decimal digits, the only decimal digits in the documents in
play); `isWordChar` models `\w` (used only for the `\b` boundaries in
`re.sub(r"\bHD\b", ...)` and `re.search(r"\b1\b" / r"\b10\b", ...)`)
over ASCII, kana, CJK ideographs and full-width alphanumerics. -/

def isPySpace (c : Char) : Bool :=
  c = ' ' || c = '\t' || c = '\n' || c = '\r' ||
  c.toNat = 0x0B || c.toNat = 0x0C ||
  (0x1C ≤ c.toNat && c.toNat ≤ 0x1F) || c.toNat = 0x85 || c.toNat = 0xA0 ||
  c.toNat = 0x1680 || (0x2000 ≤ c.toNat && c.toNat ≤ 0x200A) ||
  c.toNat = 0x2028 || c.toNat = 0x2029 || c.toNat = 0x202F ||
  c.toNat = 0x205F || c.toNat = 0x3000

def isAsciiDigit (c : Char) : Bool := 0x30 ≤ c.toNat && c.toNat ≤ 0x39

def isFwDigit (c : Char) : Bool := 0xFF10 ≤ c.toNat && c.toNat ≤ 0xFF19

def pyIsDigit (c : Char) : Bool := isAsciiDigit c || isFwDigit c

def digitVal (c : Char) : Nat :=
  if isAsciiDigit c then c.toNat - 0x30
  else if isFwDigit c then c.toNat - 0xFF10
  else 0

def isWordChar (c : Char) : Bool :=
  let n := c.toNat
  (0x41 ≤ n && n ≤ 0x5A) || (0x61 ≤ n && n ≤ 0x7A) ||
  (0x30 ≤ n && n ≤ 0x39) || n = 0x5F ||
  (0x3041 ≤ n && n ≤ 0x3096) || (0x309D ≤ n && n ≤ 0x309F) ||
  (0x30A1 ≤ n && n ≤ 0x30FA) || (0x30FC ≤ n && n ≤ 0x30FF) ||
  (0x4E00 ≤ n && n ≤ 0x9FFF) ||
  (0xFF10 ≤ n && n ≤ 0xFF19) || (0xFF21 ≤ n && n ≤ 0xFF3A) ||
  (0xFF41 ≤ n && n ≤ 0xFF5A) || (0xFF66 ≤ n && n ≤ 0xFF9F)

/-- Python `str.upper()` restricted to the repertoire in play:
ASCII letters and full-width Latin letters; all other characters that the
pipeline can see (kana, ideographs, digits, punctuation) are fixed points
of `upper` in Python as well. -/
def pyUpperChar (c : Char) : Char :=
  let n := c.toNat
  if 0x61 ≤ n && n ≤ 0x7A then Char.ofNat (n - 0x20)
  else if 0xFF41 ≤ n && n ≤ 0xFF5A then Char.ofNat (n - 0x20)
  else c

/-- The `str.maketrans` table mapping full-width Latin capitals to ASCII
(`chr(0xFF21+i) -> chr(0x41+i)`). -/
def fwAlphaChar (c : Char) : Char :=
  let n := c.toNat
  if 0xFF21 ≤ n && n ≤ 0xFF3A then Char.ofNat (n - 0xFF21 + 0x41) else c

/-- The `str.maketrans` table mapping full-width digits to ASCII
(`chr(0xFF10+i) -> chr(0x30+i)`), also used by `_fw_to_hw_digits`. -/
def fwDigitChar (c : Char) : Char :=
  let n := c.toNat
  if 0xFF10 ≤ n && n ≤ 0xFF19 then Char.ofNat (n - 0xFF10 + 0x30) else c

/-! ## List-of-characters utilities -/

def startsWithL : List Char → List Char → Bool
  | [], _ => true
  | _ :: _, [] => false
  | p :: ps, c :: cs => p = c && startsWithL ps cs

def endsWithL (pat s : List Char) : Bool := startsWithL pat.reverse s.reverse

/-- Python substring test `pat in s` (true for the empty pattern). -/
def substrL (pat s : List Char) : Bool :=
  (List.range (s.length + 1)).any (fun i => startsWithL pat (s.drop i))

def substrS (pat s : String) : Bool := substrL pat.data s.data

/-- Python `str.strip()`. -/
def pyStripL (l : List Char) : List Char :=
  ((l.dropWhile isPySpace).reverse.dropWhile isPySpace).reverse

def pyStripS (s : String) : String := ⟨pyStripL s.data⟩

/-- Python `str.replace(pat, rep)`: leftmost, non-overlapping, single
pass (the scan resumes after the inserted replacement, so replacements
are never re-examined).  `fuel` bounds recursion; it is always called
with `fuel = s.length` which suffices for non-empty patterns. -/
def replAll : Nat → List Char → List Char → List Char → List Char
  | 0, _, _, s => s
  | _ + 1, _, _, [] => []
  | fuel + 1, pat, rep, c :: rest =>
    if startsWithL pat (c :: rest) then
      rep ++ replAll fuel pat rep ((c :: rest).drop pat.length)
    else
      c :: replAll fuel pat rep rest

def pyReplace (s pat rep : String) : String :=
  ⟨replAll s.data.length pat.data rep.data s.data⟩

/-- Python `int()` on a run of decimal digits. -/
def natOfDigitsL (l : List Char) : Nat :=
  l.foldl (fun a c => 10 * a + digitVal c) 0

/-- Python `str.lower()` over the repertoire in play (ASCII letters). -/
def pyLowerChar (c : Char) : Char :=
  let n := c.toNat
  if 0x41 ≤ n && n ≤ 0x5A then Char.ofNat (n + 0x20)
  else if 0xFF21 ≤ n && n ≤ 0xFF3A then Char.ofNat (n + 0x20)
  else c

def pyLowerS (s : String) : String := ⟨s.data.map pyLowerChar⟩

/-- `re.sub(r"\bHD\b", "", s)`: removes each non-overlapping occurrence
of `HD` that has a word boundary on both sides.  The scan walks the
original string (as `re.sub` does), so boundary tests always look at
original neighbouring characters. -/
def subHDAux : Option Char → List Char → List Char
  | _, [] => []
  | prev, 'H' :: 'D' :: rest =>
    if (match prev with | none => true | some p => !isWordChar p) &&
       (match rest.head? with | none => true | some nc => !isWordChar nc) then
      subHDAux (some 'D') rest
    else
      'H' :: subHDAux (some 'H') ('D' :: rest)
  | prev, c :: rest => c :: subHDAux (some c) rest

/-! ## Resolver: `normalize_name` (src/main.py lines 465-485) -/

def normalize_name (s : String) : String :=
  -- s = s.strip()
  let l : List Char := pyStripL s.data
  -- s = s.replace("　", " ").replace("　", " ")  (both spell U+3000)
  let l := replAll l.length [(Char.ofNat 0x3000)] [' '] l
  let l := replAll l.length [(Char.ofNat 0x3000)] [' '] l
  -- s = re.sub(r"\s+", "", s)
  let l := l.filter (fun c => !isPySpace c)
  -- s = s.replace("株式会社", "").replace("(株)", "").replace("（株）", "")
  let l := replAll l.length ("株式会社").data [] l
  let l := replAll l.length ("(株)").data [] l
  let l := replAll l.length ("（株）").data [] l
  -- s = s.replace("（", "(").replace("）", ")")
  let l := replAll l.length ("（").data ("(").data l
  let l := replAll l.length ("）").data (")").data l
  -- s = s.upper()
  let l := l.map pyUpperChar
  -- full-width alpha and digit translations
  let l := l.map fwAlphaChar
  let l := l.map fwDigitChar
  -- s = s.replace("ホールディングス", "").replace("HOLDINGS", "").replace("HLDGS", "")
  let l := replAll l.length ("ホールディングス").data [] l
  let l := replAll l.length ("HOLDINGS").data [] l
  let l := replAll l.length ("HLDGS").data [] l
  -- s = re.sub(r"\bHD\b", "", s).replace("HD", "")
  let l := subHDAux none l
  let l := replAll l.length ("HD").data [] l
  ⟨l⟩

/-! ## Resolver: registry loading (src/main.py lines 487-520)

The CSV file is modelled post-`csv.DictReader`: the input is the list of
field names plus, per row, an association list from field name to cell
text.  `FileNotFoundError` (→ `sys.exit(1)`) is modelled as a missing
input. -/

/-- `row.get(field) or ""`. -/
def rowGet (field : String) (row : List (String × String)) : String :=
  ((row.find? (fun p => p.1 = field)).map (·.2)).getD ""

/-- Python-dict insertion `d[k] = v`: overwrite in place, else append. -/
def dictInsert (k v : String) (d : List (String × String)) :
    List (String × String) :=
  if d.any (fun p => p.1 = k) then
    d.map (fun p => if p.1 = k then (k, v) else p)
  else
    d ++ [(k, v)]

/-- Python-dict lookup `d[k]` / `k in d`. -/
def dictGet (k : String) (d : List (String × String)) : Option String :=
  (d.find? (fun p => p.1 = k)).map (·.2)

inductive LoadOutcome where
  /-- `FileNotFoundError` branch: `sys.exit(1)`. -/
  | exitOne : LoadOutcome
  /-- Normal return `(exact, partial)`; `warned` records whether the
  missing-header warning branch was taken. -/
  | result (warned : Bool) (exact : List (String × String))
      (partTbl : List (String × String × String)) : LoadOutcome
deriving DecidableEq, Repr

/-- One row of the loader's accumulation loop. -/
def loadRow (acc : List (String × String) × List (String × String × String))
    (row : List (String × String)) :
    List (String × String) × List (String × String × String) :=
  let code := pyStripS (rowGet ("code") row)
  let name := pyStripS (rowGet ("name") row)
  -- code4 = re.sub(r"\D", "", code)[:4]
  let code4 : String := ⟨(code.data.filter pyIsDigit).take 4⟩
  if code4.length ≠ 4 || name = "" then acc
  else
    let n := normalize_name name
    if n ≠ "" then (dictInsert n code4 acc.1, acc.2 ++ [(code4, name, n)])
    else acc

def load_master_csv
    (input : Option (List String × List (List (String × String)))) :
    LoadOutcome :=
  match input with
  | none => .exitOne
  | some (fields, rows) =>
    if ¬ (fields.contains ("code")) ∨ ¬ (fields.contains ("name")) then
      .result true [] []
    else
      let ep := rows.foldl loadRow ([], [])
      .result false ep.1 ep.2

/-! ## Resolver: `resolve_code` (src/main.py lines 522-541) -/

/-- The bidirectional-substring hit test of the scan loop:
`key and (key in norm or norm in key)`. -/
def hitMatch (key : String) (e : String × String × String) : Bool :=
  key ≠ "" && (substrS key e.2.2 || substrS e.2.2 key)

def resolve_code (name : String) (exact : List (String × String))
    (partTbl : List (String × String × String)) : Option String × String :=
  let key := normalize_name name
  match dictGet key exact with
  | some c => (some c, "EXACT")
  | none =>
    let hits := (partTbl.filter (hitMatch key)).map (·.1)
    if key.length ≤ 2 then (none, "TOO_SHORT")
    else
      match hits with
      | [c] => (some c, "PARTIAL")
      | _ :: _ :: _ => (none, "AMBIGUOUS")
      | [] => (none, "NOT_FOUND")

/-! ## Extractor: line-pattern strategy (src/main.py lines 158-206)

The PDF is modelled post-`pdfplumber`: each page carries the result of
`page.extract_text() or ""` and, for the ruled-table strategy, the
results of `page.extract_table(...)` and `page.extract_tables(...)`
(an exception from either library call is modelled as `none` / `[]`,
exactly what the `try/except` in the source turns it into). -/

structure Page where
  text : String := ""
  tableOne : Option (List (List (Option String))) := none
  tableMany : List (List (List (Option String))) := []
deriving Repr

abbrev Pdf := List Page

abbrev Row := List (Option String)

abbrev Tbl := List Row

/-- Python `str.splitlines()` (with `\r\n` counting as one break and no
trailing empty line). -/
def isNl (c : Char) : Bool :=
  c = '\n' || c = '\r' || c.toNat = 0x0B || c.toNat = 0x0C ||
  (0x1C ≤ c.toNat && c.toNat ≤ 0x1E) || c.toNat = 0x85 ||
  c.toNat = 0x2028 || c.toNat = 0x2029

def splitLinesAux : List Char → List Char → List (List Char)
  | acc, [] => if acc.isEmpty then [] else [acc.reverse]
  | acc, '\r' :: '\n' :: rest => acc.reverse :: splitLinesAux [] rest
  | acc, c :: rest =>
    if isNl c then acc.reverse :: splitLinesAux [] rest
    else splitLinesAux (c :: acc) rest

def pySplitLines (s : String) : List String :=
  (splitLinesAux [] s.data).map (fun l => ⟨l⟩)

def runLen (p : Char → Bool) (l : List Char) : Nat := (l.takeWhile p).length

/-- Greedy candidate lengths `[m, m-1, ..., 1]`. -/
def descRange (m : Nat) : List Nat := (List.range m).map (fun k => m - k)

/-- Lazy candidate lengths `[1, 2, ..., m]`. -/
def ascRange (m : Nat) : List Nat := (List.range m).map (fun k => k + 1)

/-- One match of `(\d{1,2})\s+([^\d%]+?)\s+(\d+(?:\.\d+)?)%`. -/
structure HpM where
  rank : Nat
  name : String
  ratio : String
deriving DecidableEq, Repr

/-- Backtracking matcher for the holdings-line pattern, anchored at the
head of `s`; returns the captured groups and the total matched length.
Quantifier preferences follow `re`: `{1,2}`, `\s+` and `\d+` are greedy,
`[^\d%]+?` is lazy, the fraction group is greedy-optional; inner
positions backtrack first. -/
def hpMatchAt (s : List Char) : Option (HpM × Nat) :=
  let dRun := runLen pyIsDigit s
  (descRange (min dRun 2)).findSome? (fun rl =>
    let rankCs := s.take rl
    let s1 := s.drop rl
    (descRange (runLen isPySpace s1)).findSome? (fun wl =>
      let s2 := s1.drop wl
      let nRun := runLen (fun c => !(pyIsDigit c) && c ≠ '%') s2
      (ascRange nRun).findSome? (fun nl =>
        let nameCs := s2.take nl
        let s3 := s2.drop nl
        (descRange (runLen isPySpace s3)).findSome? (fun w2l =>
          let s4 := s3.drop w2l
          (descRange (runLen pyIsDigit s4)).findSome? (fun il =>
            let intCs := s4.take il
            let s5 := s4.drop il
            let withFrac : Option (List Char × Nat) :=
              match s5 with
              | '.' :: s6 =>
                (descRange (runLen pyIsDigit s6)).findSome? (fun fl =>
                  match s6.drop fl with
                  | '%' :: _ => some (intCs ++ '.' :: s6.take fl, il + 1 + fl + 1)
                  | _ => none)
              | _ => none
            let ratioHit : Option (List Char × Nat) :=
              match withFrac with
              | some r => some r
              | none =>
                match s5 with
                | '%' :: _ => some (intCs, il + 1)
                | _ => none
            ratioHit.map (fun rt =>
              (⟨natOfDigitsL rankCs, ⟨nameCs⟩, ⟨rt.1⟩⟩,
               rl + wl + nl + w2l + rt.2)))))))

/-- `pat.finditer(line)`: leftmost, non-overlapping scan. -/
def hpFindAllAux : Nat → List Char → List HpM
  | 0, _ => []
  | _ + 1, [] => []
  | fuel + 1, c :: rest =>
    match hpMatchAt (c :: rest) with
    | some (m, len) => m :: hpFindAllAux fuel ((c :: rest).drop len)
    | none => hpFindAllAux fuel rest

def hpFindAll (s : String) : List HpM := hpFindAllAux s.data.length s.data

/-- Acceptance of one match: rank in 1..10, deduplicated append. -/
def applyMatch (holdings : List String) (m : HpM) : List String :=
  let nm := pyStripS m.name
  if 1 ≤ m.rank ∧ m.rank ≤ 10 ∧ ¬ holdings.contains nm then holdings ++ [nm]
  else holdings

/-- The multi-column rule: with two or more matches on one line, only the
last (rightmost) is kept. -/
def keptMatches (ms : List HpM) : List HpM :=
  if 2 ≤ ms.length then
    match ms.getLast? with
    | some m => [m]
    | none => []
  else ms

def lineApply (holdings : List String) (ln : String) : List String :=
  (keptMatches (hpFindAll ln)).foldl applyMatch holdings

def etLoop (trigger : String) (skips : List String) :
    Bool → List String → List String → List String
  | _, holdings, [] => holdings
  | inBlock, holdings, ln :: rest =>
    if substrS trigger ln then etLoop trigger skips true holdings rest
    else if !inBlock then etLoop trigger skips false holdings rest
    else if skips.any (fun sk => substrS sk ln) then
      etLoop trigger skips true holdings rest
    else if hpFindAll ln = [] then etLoop trigger skips true holdings rest
    else
      let h := lineApply holdings ln
      if 10 ≤ h.length then h else etLoop trigger skips true h rest

def extract_top10_holdings (pdf : Pdf) (trigger : String)
    (skips : List String) : List String :=
  let texts := (pdf.map (fun p => p.text)).filter (fun t => t ≠ "")
  let fullText := String.intercalate "\n" texts
  let lines := ((pySplitLines fullText).map pyStripS).filter (fun l => l ≠ "")
  (etLoop trigger skips false [] lines).take 10

/-! ## Extractor: ruled-table strategy (src/main.py lines 208-276) -/

/-- `_fw_to_hw_digits`. -/
def fwS (s : String) : String := ⟨s.data.map fwDigitChar⟩

/-- `cell or ""` for a possibly-null table cell. -/
def cellStr (c : Option String) : String := c.getD ""

/-- `" ".join(" ".join(c or "" for c in row) for row in t)`. -/
def flatTable (t : Tbl) : String :=
  String.intercalate " " (t.map (fun row => String.intercalate " " (row.map cellStr)))

/-- `re.search(r"\b<tok>\b", s)` for a token made of word characters. -/
def hasTok (tok s : List Char) : Bool :=
  (List.range (s.length + 1)).any (fun i =>
    startsWithL tok (s.drop i) &&
    (match (s.take i).getLast? with | none => true | some p => !isWordChar p) &&
    (match (s.drop (i + tok.length)).head? with
     | none => true
     | some nc => !isWordChar nc))

/-- The fallback filter of `extract_top10_holdings_sparx_table`:
the flattened, digit-normalized table text must contain both a
standalone `1` and a standalone `10`. -/
def passes10 (t : Tbl) : Bool :=
  let flat := (fwS (flatTable t)).data
  hasTok ("1").data flat && hasTok ("10").data flat

/-- `re.match(r"^\s*(\d{1,2})\s*$", s)`, returning the captured integer. -/
def rankMatch (s : String) : Option Nat :=
  let l := s.data.dropWhile isPySpace
  let dRun := runLen pyIsDigit l
  if 1 ≤ dRun ∧ dRun ≤ 2 ∧ (l.drop dRun).all isPySpace then
    some (natOfDigitsL (l.take dRun))
  else none

/-- Python truthiness of `page.extract_table(...)`: `None` and the empty
table are both falsy. -/
def tblOrNone (t : Option Tbl) : Option Tbl :=
  match t with
  | some t => if t.isEmpty then none else some t
  | none => none

/-- Table choice on one page: the single-table extraction when truthy,
otherwise the first multi-table candidate passing `passes10`. -/
def pickTbl (p : Page) : Option Tbl :=
  match tblOrNone p.tableOne with
  | some t => some t
  | none => p.tableMany.find? passes10

/-- One row of the chosen table: first cell must be a 1..10 rank, the
name is the (stripped) second cell. -/
def sparxRow (holdings : List String) (row : Row) : List String :=
  match row with
  | [] => holdings
  | [_] => holdings
  | c0 :: c1 :: _ =>
    let r0 := fwS (pyStripS (cellStr c0))
    let r1 := pyStripS (cellStr c1)
    match rankMatch r0 with
    | none => holdings
    | some rank =>
      if 1 ≤ rank ∧ rank ≤ 10 ∧ r1 ≠ "" ∧ ¬ holdings.contains r1 then
        holdings ++ [r1]
      else holdings

def sparxLoop : List String → List Page → List String
  | holdings, [] => holdings
  | holdings, p :: rest =>
    match pickTbl p with
    | none => sparxLoop holdings rest
    | some t =>
      let h := t.foldl sparxRow holdings
      if 10 ≤ h.length then h else sparxLoop h rest

def extract_top10_holdings_sparx_table (pdf : Pdf) (trigger : String) :
    List String :=
  -- `trigger` is accepted but unused, exactly as in the source (the body
  -- deliberately does not require the trigger text on the page).
  (sparxLoop [] pdf).take 10

/-! ## Dates (`datetime.date` plus the `relativedelta` uses in play) -/

structure Date where
  year : Nat
  month : Nat
  day : Nat
deriving DecidableEq, Repr

def isLeap (y : Nat) : Bool := y % 4 = 0 && (y % 100 ≠ 0 || y % 400 = 0)

def daysInMonth (y m : Nat) : Nat :=
  if m = 2 then (if isLeap y then 29 else 28)
  else if m = 4 ∨ m = 6 ∨ m = 9 ∨ m = 11 then 30
  else 31

/-- `datetime.date(y, m, d)` constructor validity. -/
def validDate (y m d : Nat) : Bool :=
  1 ≤ y && y ≤ 9999 && 1 ≤ m && m ≤ 12 && 1 ≤ d && d ≤ daysInMonth y m

def dateLt (a b : Date) : Bool :=
  a.year < b.year ||
  (a.year = b.year && (a.month < b.month ||
    (a.month = b.month && a.day < b.day)))

/-- `d - relativedelta(months = i)` (day clamped to the target month). -/
def monthSub (d : Date) (i : Nat) : Date :=
  let idx := d.year * 12 + (d.month - 1) - i
  let y := idx / 12
  let m := idx % 12 + 1
  ⟨y, m, min d.day (daysInMonth y m)⟩

def padNat (w n : Nat) : String :=
  let s := toString n
  ⟨List.replicate (w - s.length) '0' ++ s.data⟩

/-! ## Locator: date grammar (src/main.py lines 67-80 and 128-154) -/

/-- Anchored match of `(\d{4})\s*年\s*(\d{1,2})\s*月\s*(\d{1,2})\s*日`,
returning the three groups and the matched length.  `\d{4}` is a fixed
width; the `\d{1,2}` groups are greedy with backtracking against the
following literal. -/
def matchJpFullAt (s : List Char) : Option (Nat × Nat × Nat × Nat) :=
  let ds := s.take 4
  if ds.length = 4 ∧ ds.all pyIsDigit then
    let y := natOfDigitsL ds
    let s1 := s.drop 4
    let w1 := runLen isPySpace s1
    match s1.drop w1 with
    | '年' :: s2 =>
      let w2 := runLen isPySpace s2
      let s3 := s2.drop w2
      (descRange (min (runLen pyIsDigit s3) 2)).findSome? (fun ml =>
        let mo := natOfDigitsL (s3.take ml)
        let s4 := s3.drop ml
        let w3 := runLen isPySpace s4
        match s4.drop w3 with
        | '月' :: s5 =>
          let w4 := runLen isPySpace s5
          let s6 := s5.drop w4
          (descRange (min (runLen pyIsDigit s6) 2)).findSome? (fun dl =>
            let dv := natOfDigitsL (s6.take dl)
            let s7 := s6.drop dl
            let w5 := runLen isPySpace s7
            match s7.drop w5 with
            | '日' :: _ =>
              some (y, mo, dv, 4 + w1 + 1 + w2 + ml + w3 + 1 + w4 + dl + w5 + 1)
            | _ => none)
        | _ => none)
    | _ => none
  else none

/-- Anchored match of `(\d{4})\s*年\s*(\d{1,2})\s*月\s*末`. -/
def matchJpEomAt (s : List Char) : Option (Nat × Nat × Nat) :=
  let ds := s.take 4
  if ds.length = 4 ∧ ds.all pyIsDigit then
    let y := natOfDigitsL ds
    let s1 := s.drop 4
    let w1 := runLen isPySpace s1
    match s1.drop w1 with
    | '年' :: s2 =>
      let w2 := runLen isPySpace s2
      let s3 := s2.drop w2
      (descRange (min (runLen pyIsDigit s3) 2)).findSome? (fun ml =>
        let mo := natOfDigitsL (s3.take ml)
        let s4 := s3.drop ml
        let w3 := runLen isPySpace s4
        match s4.drop w3 with
        | '月' :: s5 =>
          let w4 := runLen isPySpace s5
          match s5.drop w4 with
          | '末' :: _ => some (y, mo, 4 + w1 + 1 + w2 + ml + w3 + 1 + w4 + 1)
          | _ => none
        | _ => none)
    | _ => none
  else none

/-- `re.search` for the explicit-day grammar (first match only). -/
def searchJpFullAux : Nat → List Char → Option (Nat × Nat × Nat)
  | 0, _ => none
  | _ + 1, [] => none
  | fuel + 1, c :: rest =>
    match matchJpFullAt (c :: rest) with
    | some (y, mo, dv, _) => some (y, mo, dv)
    | none => searchJpFullAux fuel rest

def searchJpEomAux : Nat → List Char → Option (Nat × Nat)
  | 0, _ => none
  | _ + 1, [] => none
  | fuel + 1, c :: rest =>
    match matchJpEomAt (c :: rest) with
    | some (y, mo, _) => some (y, mo)
    | none => searchJpEomAux fuel rest

/-- `parse_jp_date` (src/main.py lines 67-80).  An invalid calendar
combination makes `dt.date(...)` raise, and `parse_jp_date` does not
catch it, so the error propagates (`Except.error`).  The month-end
grammar resolves to the month's last calendar day
(`date(y, mo, 1) + relativedelta(months=1, days=-1)`). -/
def parse_jp_date (text : String) : Except String (Option Date) :=
  let t := pyStripL text.data
  match searchJpFullAux t.length t with
  | some (y, mo, dv) =>
    if validDate y mo dv then .ok (some ⟨y, mo, dv⟩) else .error ("ValueError")
  | none =>
    match searchJpEomAux t.length t with
    | some (y, mo) =>
      if validDate y mo 1 then .ok (some ⟨y, mo, daysInMonth y mo⟩)
      else .error ("ValueError")
    | none => .ok none

/-- `finditer` of the explicit-day grammar with the per-match
`try/except` of `_find_latest_jp_date_in_text` (invalid dates skipped). -/
def findAllJpFullAux : Nat → List Char → List Date
  | 0, _ => []
  | _ + 1, [] => []
  | fuel + 1, c :: rest =>
    match matchJpFullAt (c :: rest) with
    | some (y, mo, dv, len) =>
      (if validDate y mo dv then [⟨y, mo, dv⟩] else []) ++
        findAllJpFullAux fuel ((c :: rest).drop len)
    | none => findAllJpFullAux fuel rest

def findAllJpEomAux : Nat → List Char → List Date
  | 0, _ => []
  | _ + 1, [] => []
  | fuel + 1, c :: rest =>
    match matchJpEomAt (c :: rest) with
    | some (y, mo, len) =>
      (if validDate y mo 1 then [⟨y, mo, daysInMonth y mo⟩] else []) ++
        findAllJpEomAux fuel ((c :: rest).drop len)
    | none => findAllJpEomAux fuel rest

/-- `max(dates)` (first maximal element; ties are structurally equal). -/
def maxDate (l : List Date) : Option Date :=
  l.foldl (fun acc d =>
    match acc with
    | none => some d
    | some m => if dateLt m d then some d else some m) none

/-- `_find_latest_jp_date_in_text` (src/main.py lines 128-154). -/
def findLatestJpDate (text : String) : Option Date :=
  if text = "" then none
  else
    maxDate (findAllJpFullAux text.data.length text.data ++
      findAllJpEomAux text.data.length text.data)

/-! ## Extractor: structured-markup strategy (src/main.py lines 278-461)

The HTML is modelled post-`BeautifulSoup`: a `Markup` carries, for each
`<table>`, the texts of its `th` cells, the cell texts of its first
`tr`, and the cell texts of every `tr`; for each `<dl>`, the `dt`/`dd`
texts plus the first lines of the parent's text (used for rank
inference); and the concatenated `<script>` text. -/

structure MTable where
  thTexts : List String := []
  firstTrCells : List String := []
  trRows : List (List String) := []
deriving Repr

structure MDl where
  dtTexts : List String := []
  ddTexts : List String := []
  contextLines : List String := []
deriving Repr

structure Markup where
  tables : List MTable := []
  dls : List MDl := []
  scriptsText : String := ""
deriving Repr

structure HItem where
  rank : Option Nat
  name : String
  code : String
deriving DecidableEq, Repr

/-- `_norm_code`: strip, normalize full-width digits, then
`re.search(r"(\d{4})", s)` (leftmost run of four digits). -/
def normCode (s : String) : Option String :=
  let t := (fwS (pyStripS s)).data
  ((List.range (t.length + 1)).find? (fun i =>
      ((t.drop i).take 4).length = 4 ∧ ((t.drop i).take 4).all pyIsDigit)).map
    (fun i => (⟨(t.drop i).take 4⟩ : String))

/-- `_add`: skip empty name/code, deduplicate by code, store the
stripped name. -/
def addItem (items : List HItem) (rank : Option Nat) (name code : String) :
    List HItem :=
  if name = "" ∨ code = "" then items
  else if items.any (fun it => it.code = code) then items
  else items ++ [⟨rank, pyStripS name, code⟩]

/-- One data row of a recognized table in pass (1). -/
def hRowStep (nameIdx codeIdx rankIdx : Option Nat) (items : List HItem)
    (cells : List String) : List HItem :=
  if cells.isEmpty then items
  else
    match nameIdx, codeIdx with
    | some ni, some ci =>
      if cells.length ≤ max ni ci then items
      else
        let rawName := pyStripS (cells.getD ni "")
        let rawCode := pyStripS (cells.getD ci "")
        match normCode rawCode with
        | none => items
        | some code4 =>
          if substrS "銘柄名" rawName ∧
              (substrS "銘柄" rawCode ∧ substrS "コード" rawCode) then items
          else
            let rank : Option Nat :=
              match rankIdx with
              | some ri =>
                if ri < cells.length then
                  rankMatch (fwS (pyStripS (cells.getD ri "")))
                else rankMatch (fwS (pyStripS (cells.getD 0 "")))
              | none => rankMatch (fwS (pyStripS (cells.getD 0 "")))
            addItem items rank rawName code4
    | _, _ => items

/-- Row loop of pass (1).  The source checks the ten-item break only on
rows that reach `_add`, but `items` can only grow through `_add`, so
checking after every row is equivalent. -/
def hRowsLoop (ni ci ri : Option Nat) : List HItem → List (List String) → List HItem
  | items, [] => items
  | items, cells :: rest =>
    let items2 := hRowStep ni ci ri items cells
    if 10 ≤ items2.length then items2 else hRowsLoop ni ci ri items2 rest

/-- Pass (1) handling of one `<table>`. -/
def hPass1Table (items : List HItem) (t : MTable) : List HItem :=
  let headers := if t.thTexts.isEmpty then t.firstTrCells else t.thTexts
  if headers.isEmpty then items
  else if ¬ headers.any (fun h => substrS "銘柄名" h) then items
  else if ¬ headers.any (fun h =>
      (substrS "銘柄" h ∧ substrS "コード" h) ∨ pyStripS h = "コード") then items
  else
    let nameIdx := headers.findIdx? (fun h => substrS "銘柄名" (pyStripS h))
    let codeIdx := headers.findIdx? (fun h =>
      let hh := pyStripS h
      (substrS "銘柄" hh ∧ substrS "コード" hh) ∨ hh = "コード")
    let rankIdx := headers.findIdx? (fun h =>
      let hh := pyStripS h
      substrS "順位" hh ∨ hh = "#" ∨ hh = "No" ∨ hh = "NO" ∨ hh = "順")
    hRowsLoop nameIdx codeIdx rankIdx items t.trRows

def hPass1 : List HItem → List MTable → List HItem
  | items, [] => items
  | items, t :: rest =>
    let items2 := hPass1Table items t
    if 10 ≤ items2.length then items2 else hPass1 items2 rest

/-- Python-dict insertion for the `dt`/`dd` map of pass (2). -/
def mpInsert (k v : String) (m : List (String × String)) :
    List (String × String) :=
  if m.any (fun p => p.1 = k) then
    m.map (fun p => if p.1 = k then (k, v) else p)
  else m ++ [(k, v)]

/-- First standalone 1-2 digit line among the first five context lines. -/
def firstRank : List String → Option Nat
  | [] => none
  | ln :: rest =>
    match rankMatch (fwS (pyStripS ln)) with
    | some r => some r
    | none => firstRank rest

/-- Pass (2) handling of one `<dl>`. -/
def hDlStep (items : List HItem) (d : MDl) : List HItem :=
  if d.dtTexts.isEmpty ∨ d.ddTexts.isEmpty ∨
      d.dtTexts.length ≠ d.ddTexts.length then items
  else
    let mp := (d.dtTexts.zip d.ddTexts).foldl
      (fun m kv => if kv.1 ≠ "" ∧ kv.2 ≠ "" then mpInsert kv.1 kv.2 m else m) []
    let nameVal := (mp.find? (fun kv => substrS "銘柄名" kv.1)).map (·.2)
    let codeVal := (mp.find? (fun kv =>
      (substrS "銘柄" kv.1 ∧ substrS "コード" kv.1) ∨
        pyStripS kv.1 = "コード")).map (·.2)
    match normCode (codeVal.getD "") with
    | none => items
    | some code4 =>
      match nameVal with
      | none => items
      | some nv =>
        if nv = "" then items
        else addItem items (firstRank (d.contextLines.take 5)) nv code4

def hPass2 : List HItem → List MDl → List HItem
  | items, [] => items
  | items, d :: rest =>
    let items2 := hDlStep items d
    if 10 ≤ items2.length then items2 else hPass2 items2 rest

/-- The alias spellings of the name and code keys in pass (3), with
their surrounding quotes.  No alternative is a prefix of another, so
committing to the first matching alternative is complete. -/
def nameKeys : List String :=
  ["\"銘柄名\"", "\"name\"", "\"stock_name\"", "\"securityName\""]

def codeKeys : List String :=
  ["\"銘柄コード\"", "\"code\"", "\"stock_code\"", "\"ticker\"", "\"securityCode\""]

def matchKey (keys : List String) (s : List Char) : Option Nat :=
  keys.findSome? (fun k => if startsWithL k.data s then some k.data.length else none)

/-- `\s*:\s*` (deterministic: `:` is not whitespace). -/
def colonGap (s : List Char) : Option Nat :=
  let w1 := runLen isPySpace s
  match s.drop w1 with
  | ':' :: s2 => some (w1 + 1 + runLen isPySpace s2)
  | _ => none

/-- `"([^\x22]+?)"`: the lazy group can only stop at the first closing
quote, so the match is deterministic. -/
def quotedPart (s : List Char) : Option (List Char × Nat) :=
  match s with
  | '"' :: s1 =>
    let run := (s1.takeWhile (fun c => c ≠ '"')).length
    if 1 ≤ run then
      match s1.drop run with
      | '"' :: _ => some (s1.take run, 1 + run + 1)
      | _ => none
    else none
  | _ => none

/-- `(?:code keys)\s*:\s*"?(\d{4})"?` with greedy optional quotes. -/
def codeTail (s : List Char) : Option (String × Nat) :=
  match matchKey codeKeys s with
  | none => none
  | some kl =>
    match colonGap (s.drop kl) with
    | none => none
    | some gl =>
      let s2 := s.drop (kl + gl)
      let withQ : Option (String × Nat) :=
        match s2 with
        | '"' :: s3 =>
          let ds := s3.take 4
          if ds.length = 4 ∧ ds.all pyIsDigit then
            let tq := match s3.drop 4 with | '"' :: _ => 1 | _ => 0
            some ((⟨ds⟩ : String), kl + gl + 1 + 4 + tq)
          else none
        | _ => none
      match withQ with
      | some r => some r
      | none =>
        let ds := s2.take 4
        if ds.length = 4 ∧ ds.all pyIsDigit then
          let tq := match s2.drop 4 with | '"' :: _ => 1 | _ => 0
          some ((⟨ds⟩ : String), kl + gl + 4 + tq)
        else none

/-- One anchored match of `pat1` (name key, value, bounded lazy gap
`.{0,200}?` under `DOTALL`, then code key and value). -/
def pat1At (s : List Char) : Option ((String × String) × Nat) :=
  match matchKey nameKeys s with
  | none => none
  | some kl =>
    match colonGap (s.drop kl) with
    | none => none
    | some gl =>
      match quotedPart (s.drop (kl + gl)) with
      | none => none
      | some (nameCs, ql) =>
        let base := kl + gl + ql
        let rest := s.drop base
        (List.range (min 201 (rest.length + 1))).findSome? (fun g =>
          (codeTail (rest.drop g)).map (fun ct =>
            (((⟨nameCs⟩ : String), ct.1), base + g + ct.2)))

/-- One anchored match of `pat2` (code first, then name). -/
def pat2At (s : List Char) : Option ((String × String) × Nat) :=
  match codeTail s with
  | none => none
  | some (code, cl) =>
    let rest := s.drop cl
    (List.range (min 201 (rest.length + 1))).findSome? (fun g =>
      match matchKey nameKeys (rest.drop g) with
      | none => none
      | some kl =>
        match colonGap (rest.drop (g + kl)) with
        | none => none
        | some gl =>
          (quotedPart (rest.drop (g + kl + gl))).map (fun q =>
            ((code, (⟨q.1⟩ : String)), cl + g + kl + gl + q.2)))

def patFindAllAux (patAt : List Char → Option ((String × String) × Nat)) :
    Nat → List Char → List (String × String)
  | 0, _ => []
  | _ + 1, [] => []
  | fuel + 1, c :: rest =>
    match patAt (c :: rest) with
    | some (pr, len) => pr :: patFindAllAux patAt fuel ((c :: rest).drop len)
    | none => patFindAllAux patAt fuel rest

/-- Pass (3) accumulation loop over `(name, code)` pairs. -/
def hPass3Loop : List HItem → List (String × String) → List HItem
  | items, [] => items
  | items, pr :: rest =>
    let items2 := addItem items none (pyStripS pr.1) (pyStripS pr.2)
    if 10 ≤ items2.length then items2 else hPass3Loop items2 rest

def hPass3 (items : List HItem) (scripts : String) : List HItem :=
  let items1 := hPass3Loop items
    (patFindAllAux pat1At scripts.data.length scripts.data)
  if items1.length < 10 then
    hPass3Loop items1
      ((patFindAllAux pat2At scripts.data.length scripts.data).map
        (fun pr => (pr.2, pr.1)))
  else items1

/-- Sort key `(rank is None, rank or 9999)`. -/
def hKey (it : HItem) : Bool × Nat :=
  (it.rank.isNone,
   match it.rank with
   | some r => if r = 0 then 9999 else r
   | none => 9999)

def hKeyLt (a b : Bool × Nat) : Bool :=
  (!a.1 && b.1) || (a.1 = b.1 && a.2 < b.2)

/-- Stable ascending insertion sort by `hKey` (Python `list.sort` is
stable). -/
def insSorted (x : HItem) : List HItem → List HItem
  | [] => [x]
  | y :: ys => if hKeyLt (hKey x) (hKey y) then x :: y :: ys else y :: insSorted x ys

def stableSortH (l : List HItem) : List HItem :=
  l.foldl (fun acc x => insSorted x acc) []

/-- `for i, it in enumerate(items[:10], start=1): it["rank"] = i` mutates
only the first ten items in place. -/
def assignSeqRanks (items : List HItem) : List HItem :=
  ((items.take 10).enum.map (fun p => { p.2 with rank := some (p.1 + 1) })) ++
    items.drop 10

def extract_top10_holdings_hifumi_html (mk : Markup) : List HItem :=
  let items := hPass1 [] mk.tables
  let items := if items.length < 10 then hPass2 items mk.dls else items
  let items := if items.length < 10 then hPass3 items mk.scriptsText else items
  let items :=
    if ¬ items.isEmpty ∧ items.all (fun it => it.rank.isNone) then
      assignSeqRanks items
    else items
  (stableSortH items).take 10

/-! ## Locator strategies (src/main.py lines 82-126)

The HTTP transport is an external collaborator: a `World` maps a URL to
either an exception or a `Response` whose text side is pre-parsed
(`HtmlDoc`: anchors with `href`, the document text, the markup model)
and whose byte side is the pre-parsed PDF (`Pdf`). -/

structure Link where
  href : String
  text : String
deriving DecidableEq, Repr

structure HtmlDoc where
  rawText : String := ""
  links : List Link := []
  markup : Markup := {}
deriving Repr

structure Response where
  doc : HtmlDoc := {}
  content : Pdf := []
deriving Repr

structure World where
  masterInput : Option (List String × List (List (String × String)))
  httpGet : String → Except String Response
  headOk : String → Bool
  today : Date

def findSubIdx (pat s : List Char) : Option Nat :=
  (List.range (s.length + 1)).find? (fun i => startsWithL pat (s.drop i))

/-- Models `requests.compat.urljoin` for the URL shapes in play:
absolute URLs pass through; root-relative paths attach to the base
origin; other relative paths replace the last base path segment. -/
def urljoin (base href : String) : String :=
  if substrS "://" href then href
  else if startsWithL ("/").data href.data then
    (match findSubIdx ("://").data base.data with
     | none => base
     | some i =>
       let rest := base.data.drop (i + 3)
       (⟨base.data.take (i + 3 + (rest.takeWhile (fun c => c ≠ '/')).length)⟩ :
         String)) ++ href
  else
    let l := base.data
    let cut := (l.reverse.takeWhile (fun c => c ≠ '/')).length
    (⟨l.take (l.length - cut)⟩ : String) ++ href

abbrev Cand := Option Date × String × String

/-- Sort key comparison for `(d is not None, d or date(1900, 1, 1))`:
the first component dominates, so an unparsed date is strictly older
than every parsed one. -/
def candKeyLt (a b : Option Date) : Bool :=
  match a, b with
  | none, none => false
  | none, some _ => true
  | some _, none => false
  | some x, some y => dateLt x y

/-- The candidate filter and accumulation loop of `find_pdf_sbi`; a
`ValueError` from `parse_jp_date` propagates. -/
def buildCands (baseUrl : String) : List Link → Except String (List Cand)
  | [] => .ok []
  | a :: rest =>
    let href := pyStripS a.href
    if ¬ substrS "/data/fund_pdf/monthly/" href then buildCands baseUrl rest
    else if ¬ endsWithL (".pdf").data (pyLowerS href).data then
      buildCands baseUrl rest
    else do
      let d ← parse_jp_date a.text
      let tl ← buildCands baseUrl rest
      .ok ((d, urljoin baseUrl href, a.text) :: tl)

/-- `candidates.sort(key=..., reverse=True); candidates[0]`: Python's
sort is stable, so the head of the reverse-sorted list is the first
candidate with maximal key; the strict-improvement fold computes exactly
that element. -/
def pickBestCand (c : Cand) (cs : List Cand) : Cand :=
  cs.foldl (fun best x => if candKeyLt best.1 x.1 then x else best) c

def find_pdf_sbi (w : World) (baseUrl : String) :
    Except String (String × Option Date) := do
  let resp ← w.httpGet baseUrl
  let cands ← buildCands baseUrl resp.doc.links
  match cands with
  | [] => .error ("No monthly PDF candidates found.")
  | c :: cs =>
    let best := pickBestCand c cs
    .ok (best.2.1, best.1)

/-- The probe loop of `find_pdf_sparx_backtrack` over
`i in range(1, 4)`; the assumed report date
`target_month + relativedelta(day=31)` is the month's last day. -/
def sparxProbe (w : World) (tmpl : String) :
    List Nat → Except String (String × Option Date)
  | [] => .error ("Latest PDF not found (checked last 3 months).")
  | i :: rest =>
    let tm := monthSub w.today i
    let ym := padNat 4 tm.year ++ padNat 2 tm.month
    let url := pyReplace tmpl ("{ym}") ym
    if w.headOk url then
      .ok (url, some ⟨tm.year, tm.month, daysInMonth tm.year tm.month⟩)
    else sparxProbe w tmpl rest

def find_pdf_sparx_backtrack (w : World) (tmpl : String) :
    Except String (String × Option Date) :=
  sparxProbe w tmpl [1, 2, 3]

/-! ## Driver (src/main.py lines 545-642) -/

structure Fund where
  id : String
  url : String
  finderType : String
  pdfUrlTemplate : Option String := none
  extractTrigger : Option String := none
  skipKeywords : Option (List String) := none
  extractorType : Option String := none
deriving Repr

structure Record where
  fund_id : String
  report_date : String
  rank_name : String
  code : Option String
  status : String
deriving DecidableEq, Repr

/-- `str(report_date)` (`str(None)` is `"None"`, dates print ISO). -/
def dateStr : Option Date → String
  | none => "None"
  | some d => padNat 4 d.year ++ "-" ++ padNat 2 d.month ++ "-" ++ padNat 2 d.day

/-- `fund["k"]` on an absent key raises `KeyError`. -/
def reqField {α : Type} : Option α → Except String α
  | some a => .ok a
  | none => .error ("KeyError")

/-- The body of the per-fund `try:` block of `main`. -/
def fundBody (w : World) (exact : List (String × String))
    (partTbl : List (String × String × String)) (f : Fund) :
    Except String (List Record) :=
  if f.finderType = "hifumi_html" then do
    let resp ← w.httpGet f.url
    let reportDate := findLatestJpDate resp.doc.rawText
    let holdings := extract_top10_holdings_hifumi_html resp.doc.markup
    if holdings.isEmpty then .ok []
    else
      .ok (holdings.map (fun it =>
        ⟨f.id, dateStr reportDate, it.name, some it.code, "FROM_HTML"⟩))
  else do
    let ur ←
      if f.finderType = "sbi_scrape" then find_pdf_sbi w f.url
      else if f.finderType = "sparx_backtrack" then do
        let tmpl ← reqField f.pdfUrlTemplate
        find_pdf_sparx_backtrack w tmpl
      else .ok ("", none)
    let resp ← w.httpGet ur.1
    let pdfBytes := resp.content
    let rawNames ←
      if f.extractorType = some "sparx_table" then do
        let trig ← reqField f.extractTrigger
        pure (extract_top10_holdings_sparx_table pdfBytes trig)
      else do
        let trig ← reqField f.extractTrigger
        let sks ← reqField f.skipKeywords
        pure (extract_top10_holdings pdfBytes trig sks)
    if rawNames.isEmpty then .ok []
    else
      .ok (rawNames.map (fun nm =>
        let rc := resolve_code nm exact partTbl
        ⟨f.id, dateStr ur.2, nm, rc.1, rc.2⟩))

/-- The fund loop: each fund's body runs under `try/except Exception`,
so a failing fund contributes nothing and the loop continues. -/
def processFunds (w : World) (exact : List (String × String))
    (partTbl : List (String × String × String)) (funds : List Fund) :
    List Record :=
  funds.foldl (fun acc f =>
    match fundBody w exact partTbl f with
    | .ok rs => acc ++ rs
    | .error _ => acc) []

inductive MainOutcome where
  | exited : MainOutcome
  | finished (records : List Record) : MainOutcome
deriving DecidableEq, Repr

def runMain (w : World) (funds : List Fund) : MainOutcome :=
  match load_master_csv w.masterInput with
  | .exitOne => .exited
  | .result _ exact partTbl => .finished (processFunds w exact partTbl funds)

def TARGET_FUNDS : List Fund := [
  { id := "SBI_SmallMonsters",
    url := "https://www.sbiokasan-am.co.jp/fund/552375/",
    finderType := "sbi_scrape",
    extractTrigger := some "組入上位10銘柄",
    skipKeywords := some ["当レポートは", "(1/8)", "ご注意", "※"],
    extractorType := some "text_regex" },
  { id := "Sparx_Gensen",
    url := "https://www.sparx.co.jp/mutual/rsn.html",
    finderType := "sparx_backtrack",
    pdfUrlTemplate := some "https://www.sparx.co.jp/mutual/rsn_{ym}.pdf",
    extractTrigger := some "組入上位10銘柄",
    skipKeywords := some ["銘柄総数", "コード", "銘柄名", "業種", "比率"],
    extractorType := some "sparx_table" },
  { id := "Hifumi_MicroscopePro",
    url := "https://hifumi.rheos.jp/fund/microscope/latest_report/",
    finderType := "hifumi_html" }]

def main (w : World) : MainOutcome := runMain w TARGET_FUNDS

/-! ## Concrete scenario data used by the claim theorems -/

/-- Registry input whose headers lack the required `code` field, plus a
working SBI fund pipeline: exercises the missing-header path of
`load_master_csv` inside a full run. -/
def w3 : World := {
  masterInput := some (["id", "name"], [[("id", "7203"), ("name", "トヨタ")]]),
  httpGet := fun u =>
    if u = "https://www.sbiokasan-am.co.jp/fund/552375/" then
      .ok { doc := { links :=
        [⟨"https://x.test/data/fund_pdf/monthly/r.pdf", "2024年1月31日"⟩] } }
    else if u = "https://x.test/data/fund_pdf/monthly/r.pdf" then
      .ok { content := [{ text := "組入上位10銘柄\n1 トヨタ 5.0%" }] }
    else .error "RemoteFetchError",
  headOk := fun _ => false,
  today := ⟨2024, 6, 15⟩ }

/-- Table with eight first-column rank cells (1..8) but no standalone
`10` token in its flattened text. -/
def tblA : Tbl :=
  [[some "1", some "AA"], [some "2", some "AB"], [some "3", some "AC"],
   [some "4", some "AD"], [some "5", some "AE"], [some "6", some "AF"],
   [some "7", some "AG"], [some "8", some "AH"]]

/-- Table with two first-column rank cells (1 and 10). -/
def tblB : Tbl := [[some "1", some "BA"], [some "10", some "BB"]]

def pdfC4 : Pdf := [{ tableOne := none, tableMany := [tblA, tblB] }]

/-- The table score in the words of the spec: the count of first-column
cells that parse, after full-width-digit normalization, as an integer in
1..10.  (The source has no such scoring; this definition exists to be
compared with what the source does.) -/
def specTableScore (t : Tbl) : Nat :=
  t.countP (fun row =>
    match row.head? with
    | some c =>
      match rankMatch (fwS (pyStripS (cellStr c))) with
      | some r => decide (1 ≤ r ∧ r ≤ 10)
      | none => false
    | none => false)

/-- A one-row chosen table whose second cell is blank but whose third
cell is non-empty. -/
def pdfC9 : Pdf := [{ tableOne := some [[some "1", some "", some "AZ"]] }]

/-- The row-name rule in the words of the spec: the second cell, or — if
blank — the first non-empty cell scanning rightward.  (The source never
scans rightward; this definition exists to be compared with what the
source does.) -/
def specRowName (row : Row) : Option String :=
  match row with
  | [] => none
  | _ :: rest => (rest.map (fun c => pyStripS (cellStr c))).find? (fun s => s ≠ "")

/-- Three funds for the driver-isolation scenario; the second fund's
PDF download fails with a transport error. -/
def fundA : Fund := {
  id := "F1", url := "https://h.test/p1",
  finderType := "sbi_scrape", extractTrigger := some "TOP10",
  skipKeywords := some [], extractorType := some "text_regex" }

def fundB : Fund := {
  id := "F2", url := "https://h.test/p2",
  finderType := "sbi_scrape", extractTrigger := some "TOP10",
  skipKeywords := some [], extractorType := some "text_regex" }

def fundC : Fund := {
  id := "F3", url := "https://h.test/p3",
  finderType := "sbi_scrape", extractTrigger := some "TOP10",
  skipKeywords := some [], extractorType := some "text_regex" }

def wC6 : World := {
  masterInput := none,
  httpGet := fun u =>
    if u = "https://h.test/p1" then
      .ok { doc := { links :=
        [⟨"https://h.test/data/fund_pdf/monthly/a.pdf", "2024年1月31日"⟩] } }
    else if u = "https://h.test/data/fund_pdf/monthly/a.pdf" then
      .ok { content := [{ text := "TOP10\n1 AAA 1.0%" }] }
    else if u = "https://h.test/p2" then
      .ok { doc := { links :=
        [⟨"https://h.test/data/fund_pdf/monthly/b.pdf", "2024年2月29日"⟩] } }
    else if u = "https://h.test/p3" then
      .ok { doc := { links :=
        [⟨"https://h.test/data/fund_pdf/monthly/c.pdf", "2024年3月31日"⟩] } }
    else if u = "https://h.test/data/fund_pdf/monthly/c.pdf" then
      .ok { content := [{ text := "TOP10\n1 CCC 2.0%" }] }
    else .error "RemoteFetchError",
  headOk := fun _ => false,
  today := ⟨2024, 6, 1⟩ }

def exC6 : List (String × String) := [("AAA", "1111"), ("CCC", "3333")]

def ptC6 : List (String × String × String) :=
  [("1111", "AAA", "AAA"), ("3333", "CCC", "CCC")]

/-- Catalog page with a January link, a February link, and an
unparseable link text. -/
def wC8 : World := {
  masterInput := none,
  httpGet := fun u =>
    if u = "https://idx.test/list" then
      .ok { doc := { links := [
        ⟨"https://idx.test/data/fund_pdf/monthly/a.pdf", "2024年1月31日"⟩,
        ⟨"https://idx.test/data/fund_pdf/monthly/b.pdf", "2024年2月29日"⟩,
        ⟨"https://idx.test/data/fund_pdf/monthly/c.pdf", "てきとう"⟩] } }
    else .error "x",
  headOk := fun _ => false,
  today := ⟨2024, 6, 15⟩ }

/-- Same candidates with the unparseable link first. -/
def wC8b : World := {
  masterInput := none,
  httpGet := fun u =>
    if u = "https://idx.test/list" then
      .ok { doc := { links := [
        ⟨"https://idx.test/data/fund_pdf/monthly/c.pdf", "てきとう"⟩,
        ⟨"https://idx.test/data/fund_pdf/monthly/b.pdf", "2024年2月29日"⟩,
        ⟨"https://idx.test/data/fund_pdf/monthly/a.pdf", "2024年1月31日"⟩] } }
    else .error "x",
  headOk := fun _ => false,
  today := ⟨2024, 6, 15⟩ }

/-- Two candidates tied on the same parsed date: the first-encountered
one must win. -/
def wC8c : World := {
  masterInput := none,
  httpGet := fun u =>
    if u = "https://idx.test/list" then
      .ok { doc := { links := [
        ⟨"https://idx.test/data/fund_pdf/monthly/d1.pdf", "2024年2月29日"⟩,
        ⟨"https://idx.test/data/fund_pdf/monthly/d2.pdf", "2024年2月29日"⟩] } }
    else .error "x",
  headOk := fun _ => false,
  today := ⟨2024, 6, 15⟩ }

instance {ε α : Type} [DecidableEq ε] [DecidableEq α] :
    DecidableEq (Except ε α) := fun a b =>
  match a, b with
  | .ok x, .ok y =>
    if h : x = y then .isTrue (by rw [h]) else .isFalse (by simp [h])
  | .error x, .error y =>
    if h : x = y then .isTrue (by rw [h]) else .isFalse (by simp [h])
  | .ok _, .error _ => .isFalse (by simp)
  | .error _, .ok _ => .isFalse (by simp)

/-! ## Helper lemmas -/

/-- Every entry of `dictInsert k v d` either has key `k` or already was
in `d`. -/
theorem dictInsert_mem (k v : String) (d : List (String × String))
    (p : String × String) (hp : p ∈ dictInsert k v d) : p.1 = k ∨ p ∈ d := by
  unfold dictInsert at hp
  by_cases h : d.any (fun q => q.1 = k)
  · rw [if_pos h] at hp
    obtain ⟨q, hq, hpq⟩ := List.mem_map.mp hp
    by_cases hqk : q.1 = k
    · left
      rw [← hpq]
      simp [hqk]
    · right
      rw [← hpq]
      simp only [if_neg hqk]
      exact hq
  · rw [if_neg h] at hp
    rcases List.mem_append.mp hp with hp | hp
    · right; exact hp
    · left
      simp only [List.mem_singleton] at hp
      rw [hp]

/-- `loadRow` never stores an empty normalized key in the exact map. -/
theorem loadRow_keys_ne (acc : List (String × String) × List (String × String × String))
    (row : List (String × String)) (h : ∀ p ∈ acc.1, p.1 ≠ "") :
    ∀ p ∈ (loadRow acc row).1, p.1 ≠ "" := by
  intro p hp
  simp only [loadRow] at hp
  split at hp
  · exact h p hp
  · split at hp
    · next hn =>
      rcases dictInsert_mem _ _ _ p hp with h1 | h1
      · rw [h1]
        simpa using hn
      · exact h p h1
    · exact h p hp

/-- The exact map built by the loader's row loop has no empty key. -/
theorem foldl_loadRow_keys_ne (rows : List (List (String × String)))
    (acc : List (String × String) × List (String × String × String))
    (h : ∀ p ∈ acc.1, p.1 ≠ "") :
    ∀ p ∈ (rows.foldl loadRow acc).1, p.1 ≠ "" := by
  induction rows generalizing acc with
  | nil => exact h
  | cons r rs ih =>
    exact ih (loadRow acc r) (loadRow_keys_ne acc r h)

theorem dictGet_empty_of_keys_ne (d : List (String × String))
    (h : ∀ p ∈ d, p.1 ≠ "") : dictGet "" d = none := by
  unfold dictGet
  rw [List.find?_eq_none.mpr]
  · rfl
  · intro p hp
    simpa using h p hp

/-! ## Claim theorems -/

/-- C1: the spec demands `normalize(normalize(x)) == normalize(x)` for
all `x`, but the code violates it: removing `HD` from `HHDD` abuts the
leftover `H` and `D` into a fresh `HD`, which a second application
strips, so `normalize_name` is not idempotent. -/
theorem c1_normalize_not_idempotent :
    normalize_name (normalize_name "HHDD") ≠ normalize_name "HHDD" ∧
    normalize_name "HHDD" = "HD" ∧ normalize_name "HD" = "" := by decide

/-- C2 counterexample: two registry rows with distinct names but one
shared code are both stored by the loader; a key hitting both yields two
hit entries with a single distinct code, and `resolve_code` returns
`(none, AMBIGUOUS)` — not `(code, PARTIAL)` as the claim predicts. -/
theorem c2_counterexample :
    load_master_csv (some (["code", "name"],
      [[("code", "1234"), ("name", "ABCX")], [("code", "1234"), ("name", "ABCY")]])) =
      .result false [("ABCX", "1234"), ("ABCY", "1234")]
        [("1234", "ABCX", "ABCX"), ("1234", "ABCY", "ABCY")] ∧
    (([("1234", "ABCX", "ABCX"), ("1234", "ABCY", "ABCY")].filter
        (hitMatch (normalize_name "ABC"))).map (·.1)) = ["1234", "1234"] ∧
    resolve_code "ABC" [("ABCX", "1234"), ("ABCY", "1234")]
      [("1234", "ABCX", "ABCX"), ("1234", "ABCY", "ABCY")] = (none, "AMBIGUOUS") ∧
    resolve_code "ABC" [("ABCX", "1234"), ("ABCY", "1234")]
      [("1234", "ABCX", "ABCX"), ("1234", "ABCY", "ABCY")] ≠
      (some "1234", "PARTIAL") := by decide

/-- C2 amended: for a key of length at least 3 with no exact match,
`resolve_code` classifies by the number of hit entries (one per matching
registry row, codes not deduplicated): zero hits is `(none, NOT_FOUND)`,
exactly one hit entry is `(code, PARTIAL)`, and two or more hit entries
is `(none, AMBIGUOUS)` even when all hits carry one and the same code. -/
theorem c2_amended_hits_count (name : String) (exact : List (String × String))
    (partTbl : List (String × String × String))
    (hex : dictGet (normalize_name name) exact = none)
    (hlen : 3 ≤ (normalize_name name).length) :
    ((partTbl.filter (hitMatch (normalize_name name))).map (·.1) = [] →
      resolve_code name exact partTbl = (none, "NOT_FOUND")) ∧
    (∀ c, (partTbl.filter (hitMatch (normalize_name name))).map (·.1) = [c] →
      resolve_code name exact partTbl = (some c, "PARTIAL")) ∧
    (2 ≤ ((partTbl.filter (hitMatch (normalize_name name))).map (·.1)).length →
      resolve_code name exact partTbl = (none, "AMBIGUOUS")) := by
  have hnotle : ¬ (normalize_name name).length ≤ 2 := by omega
  refine ⟨?_, ?_, ?_⟩
  · intro hh
    simp only [resolve_code, hex, hh, if_neg hnotle]
  · intro c hh
    simp only [resolve_code, hex, hh, if_neg hnotle]
  · intro hh
    simp only [resolve_code, hex, if_neg hnotle]
    cases hm : (partTbl.filter (hitMatch (normalize_name name))).map (·.1) with
    | nil =>
      rw [hm] at hh
      simp at hh
    | cons a tl =>
      cases tl with
      | nil =>
        rw [hm] at hh
        simp at hh
      | cons b tl2 => rfl

/-- C2 amended witness. -/
theorem c2_amended_witness :
    resolve_code "ABC" [] [] = (none, "NOT_FOUND") ∧
    resolve_code "ABC" [] [("1234", "ABCX", "ABCX")] = (some "1234", "PARTIAL") ∧
    resolve_code "ABC" [] [("1234", "ABCX", "ABCX"), ("5678", "ABCY", "ABCY")] =
      (none, "AMBIGUOUS") := by
  refine ⟨?_, ?_, ?_⟩
  · exact (c2_amended_hits_count "ABC" [] [] (by decide) (by decide)).1 (by decide)
  · exact (c2_amended_hits_count "ABC" [] [("1234", "ABCX", "ABCX")]
      (by decide) (by decide)).2.1 "1234" (by decide)
  · exact (c2_amended_hits_count "ABC" []
      [("1234", "ABCX", "ABCX"), ("5678", "ABCY", "ABCY")]
      (by decide) (by decide)).2.2 (by decide)

/-- C5: an exact match returns `(code, EXACT)` before the length guard
is ever consulted (so keys of length 1 or 2 can resolve EXACT), and a
key of length at most 2 with no exact match returns `(none, TOO_SHORT)`
for every registry — regardless of how many substring hits the scan
found. -/
theorem c5_exact_beats_too_short (name : String) (exact : List (String × String))
    (partTbl : List (String × String × String)) :
    (∀ c, dictGet (normalize_name name) exact = some c →
      resolve_code name exact partTbl = (some c, "EXACT")) ∧
    (dictGet (normalize_name name) exact = none →
      (normalize_name name).length ≤ 2 →
      resolve_code name exact partTbl = (none, "TOO_SHORT")) := by
  constructor
  · intro c h
    simp only [resolve_code, h]
  · intro h hl
    simp only [resolve_code, h, if_pos hl]

/-- C5 witness: a one-character full-width key resolves EXACT, and a
two-character key with a live substring hit still resolves TOO_SHORT. -/
theorem c5_witness :
    resolve_code "Ｓ" [("S", "1111")] [("2222", "SX", "SX")] = (some "1111", "EXACT") ∧
    (hitMatch (normalize_name "SX") ("2222", "SXY", "SXY") = true ∧
      resolve_code "SX" [] [("2222", "SXY", "SXY")] = (none, "TOO_SHORT")) :=
  ⟨(c5_exact_beats_too_short "Ｓ" [("S", "1111")] [("2222", "SX", "SX")]).1
      "1111" (by decide),
   by decide,
   (c5_exact_beats_too_short "SX" [] [("2222", "SXY", "SXY")]).2
      (by decide) (by decide)⟩

/-- C10: a name whose normalized key is empty resolves
`(none, TOO_SHORT)` against any registry the loader produced: the
loader's `if n:` guard keeps the empty key out of the exact map, and the
empty key then reaches the length guard. -/
theorem c10_empty_key_too_short (name : String) (fields : List String)
    (rows : List (List (String × String))) (warned : Bool)
    (exact : List (String × String)) (partTbl : List (String × String × String))
    (hkey : normalize_name name = "")
    (hload : load_master_csv (some (fields, rows)) = .result warned exact partTbl) :
    resolve_code name exact partTbl = (none, "TOO_SHORT") := by
  have hex : dictGet "" exact = none := by
    simp only [load_master_csv] at hload
    split at hload
    · injection hload with h1 h2 h3
      rw [← h2]
      rfl
    · injection hload with h1 h2 h3
      rw [← h2]
      exact dictGet_empty_of_keys_ne _
        (foldl_loadRow_keys_ne rows ([], []) (by simp))
  have h02 : ("" : String).length ≤ 2 := by decide
  simp [resolve_code, hkey, hex, h02]

/-- C10 witness: `株式会社` normalizes to the empty string and resolves
TOO_SHORT against a loader-produced registry. -/
theorem c10_witness :
    normalize_name "株式会社" = "" ∧
    resolve_code "株式会社" [("トヨタ", "7203")] [("7203", "トヨタ", "トヨタ")] =
      (none, "TOO_SHORT") :=
  ⟨by decide,
   c10_empty_key_too_short "株式会社" ["code", "name"]
     [[("code", "7203"), ("name", "トヨタ")]] false [("トヨタ", "7203")]
     [("7203", "トヨタ", "トヨタ")] (by decide) (by decide)⟩

/-- C3 counterexample: with the registry headers missing the required
`code` field, the run does not abort — the loader returns an empty
registry after a warning and the fund loop still runs, emitting a record
for the first fund (resolved `NOT_FOUND` against the empty registry). -/
theorem c3_counterexample :
    main w3 = .finished
      [⟨"SBI_SmallMonsters", "2024-01-31", "トヨタ", none, "NOT_FOUND"⟩] ∧
    main w3 ≠ .exited := by
  have h : main w3 = .finished
      [⟨"SBI_SmallMonsters", "2024-01-31", "トヨタ", none, "NOT_FOUND"⟩] := by
    decide
  refine ⟨h, ?_⟩
  rw [h]
  decide

/-- C3 amended: a registry input missing either required field name
makes the loader log a warning and return an empty registry; the run
then continues and every fund pipeline is attempted against the empty
registry.  Only a missing registry file aborts the run (`sys.exit(1)`,
modelled by `MainOutcome.exited`). -/
theorem c3_amended_warn_and_continue (w : World) (funds : List Fund)
    (fields : List String) (rows : List (List (String × String)))
    (hw : w.masterInput = some (fields, rows))
    (h : fields.contains "code" = false ∨ fields.contains "name" = false) :
    load_master_csv w.masterInput = .result true [] [] ∧
    runMain w funds = .finished (processFunds w [] [] funds) := by
  have hc : ¬ fields.contains "code" = true ∨ ¬ fields.contains "name" = true := by
    rcases h with h | h
    · left; simpa using h
    · right; simpa using h
  have hl : load_master_csv w.masterInput = .result true [] [] := by
    rw [hw]
    simp only [load_master_csv]
    rw [if_pos hc]
  refine ⟨hl, ?_⟩
  unfold runMain
  rw [hl]

/-- C3 amended witness: the concrete missing-header run finishes with a
non-empty record list. -/
theorem c3_amended_witness :
    runMain w3 TARGET_FUNDS = .finished (processFunds w3 [] [] TARGET_FUNDS) ∧
    processFunds w3 [] [] TARGET_FUNDS ≠ [] := by
  refine ⟨?_, by decide⟩
  exact (c3_amended_warn_and_continue w3 TARGET_FUNDS ["id", "name"]
    [[("id", "7203"), ("name", "トヨタ")]] rfl (by decide)).2

/-- C4 counterexample: on a page whose single-table extraction is empty,
with candidate tables A (eight 1..10 first-column rank cells, but no
standalone `10` token) before B (two rank cells, tokens `1` and `10`),
the extractor selects B — not the higher-scoring A the claim predicts:
the source selects the first table containing both tokens and never
counts rank cells. -/
theorem c4_counterexample :
    specTableScore tblA = 8 ∧ specTableScore tblB = 2 ∧
    extract_top10_holdings_sparx_table pdfC4 "組入上位10銘柄" = ["BA", "BB"] ∧
    ¬ "AA" ∈ extract_top10_holdings_sparx_table pdfC4 "組入上位10銘柄" := by
  decide

/-- C4 amended: when the page-level single-table extraction yields
nothing, the extractor scans the page's candidate tables in order and
uses the first one whose flattened, full-width-digit-normalized text
contains both a standalone `1` and a standalone `10`; there is no
count-based scoring. -/
theorem c4_amended_first_passing_table (ts : List Tbl) (trig : String) :
    extract_top10_holdings_sparx_table
      [{ text := "", tableOne := none, tableMany := ts }] trig =
      (match ts.find? passes10 with
       | none => []
       | some t => (t.foldl sparxRow []).take 10) := by
  unfold extract_top10_holdings_sparx_table
  cases h : ts.find? passes10 with
  | none => simp [sparxLoop, pickTbl, tblOrNone, h]
  | some t =>
    simp only [sparxLoop, pickTbl, tblOrNone, h]
    split <;> simp [sparxLoop]

/-- C7: within the holdings block, a line with two or more pattern
matches contributes only its last match; and the example line
`3 電気機器 5 キッツ 4.2%` yields the holding `キッツ` at matched rank
5 (the sector column `電気機器` is not followed by a ratio, so it is not
even a match there; in the two-ratio variant it is a match and is
discarded as the non-last one). -/
theorem c7_last_match_wins :
    (∀ (holdings : List String) (ln : String) (m : HpM),
      2 ≤ (hpFindAll ln).length → (hpFindAll ln).getLast? = some m →
      lineApply holdings ln = applyMatch holdings m) ∧
    hpFindAll "3 電気機器 5 キッツ 4.2%" = [⟨5, "キッツ", "4.2"⟩] ∧
    extract_top10_holdings [{ text := "組入上位10銘柄\n3 電気機器 5 キッツ 4.2%" }]
      "組入上位10銘柄" [] = ["キッツ"] ∧
    hpFindAll "3 電気機器 12.3% 5 キッツ 4.2%" =
      [⟨3, "電気機器", "12.3"⟩, ⟨5, "キッツ", "4.2"⟩] ∧
    extract_top10_holdings
      [{ text := "組入上位10銘柄\n3 電気機器 12.3% 5 キッツ 4.2%" }]
      "組入上位10銘柄" [] = ["キッツ"] := by
  refine ⟨?_, by decide, by decide, by decide, by decide⟩
  intro holdings ln m h2 hl
  unfold lineApply keptMatches
  rw [if_pos h2, hl]
  rfl

/-- C7 witness: the two-ratio line keeps only its last match. -/
theorem c7_witness :
    lineApply [] "3 電気機器 12.3% 5 キッツ 4.2%" = ["キッツ"] := by
  have h := c7_last_match_wins.1 [] "3 電気機器 12.3% 5 キッツ 4.2%"
    ⟨5, "キッツ", "4.2"⟩ (by decide) (by decide)
  rw [h]
  decide

/-- C6: an error anywhere in one fund's pipeline body is caught at the
fund boundary: with three funds whose middle body fails, the run's
output is exactly the first fund's records followed by the third
fund's, in fund order. -/
theorem c6_fund_isolation (w : World) (exact : List (String × String))
    (partTbl : List (String × String × String)) (f1 f2 f3 : Fund) (e : String)
    (r1 r3 : List Record)
    (h1 : fundBody w exact partTbl f1 = .ok r1)
    (h2 : fundBody w exact partTbl f2 = .error e)
    (h3 : fundBody w exact partTbl f3 = .ok r3) :
    processFunds w exact partTbl [f1, f2, f3] = r1 ++ r3 := by
  simp [processFunds, h1, h2, h3]

/-- C6 witness: the middle fund's PDF download raises a transport error;
the records of funds one and three survive in order. -/
theorem c6_witness :
    fundBody wC6 exC6 ptC6 fundB = .error "RemoteFetchError" ∧
    processFunds wC6 exC6 ptC6 [fundA, fundB, fundC] =
      [⟨"F1", "2024-01-31", "AAA", some "1111", "EXACT"⟩] ++
      [⟨"F3", "2024-03-31", "CCC", some "3333", "EXACT"⟩] := by
  refine ⟨by decide, ?_⟩
  exact c6_fund_isolation wC6 exC6 ptC6 fundA fundB fundC "RemoteFetchError"
    [⟨"F1", "2024-01-31", "AAA", some "1111", "EXACT"⟩]
    [⟨"F3", "2024-03-31", "CCC", some "3333", "EXACT"⟩]
    (by decide) (by decide) (by decide)

/-- C8: among surviving links, the catalog-scan locator picks the latest
parsed date, treats an unparseable text as strictly older than every
parsed date (regardless of its position), keeps the first among tied
candidates, and resolves the month-end grammar to the month's last day:
with texts `2024年1月31日`, `2024年2月29日` and an unparseable string,
the February link wins. -/
theorem c8_latest_date_selection :
    find_pdf_sbi wC8 "https://idx.test/list" =
      .ok ("https://idx.test/data/fund_pdf/monthly/b.pdf", some ⟨2024, 2, 29⟩) ∧
    find_pdf_sbi wC8b "https://idx.test/list" =
      .ok ("https://idx.test/data/fund_pdf/monthly/b.pdf", some ⟨2024, 2, 29⟩) ∧
    find_pdf_sbi wC8c "https://idx.test/list" =
      .ok ("https://idx.test/data/fund_pdf/monthly/d1.pdf", some ⟨2024, 2, 29⟩) ∧
    parse_jp_date "2024年2月末" = .ok (some ⟨2024, 2, 29⟩) ∧
    (∀ d : Date, candKeyLt none (some d) = true) := by
  refine ⟨by decide, by decide, by decide, by decide, ?_⟩
  intro d
  rfl

/-- C9 counterexample: a chosen-table row `["1", "", "AZ"]` has a rank
in the first cell and a non-empty third cell; the spec's rightward-scan
rule would contribute `AZ`, but the source reads only the second cell
and the row contributes nothing. -/
theorem c9_counterexample :
    specRowName [some "1", some "", some "AZ"] = some "AZ" ∧
    extract_top10_holdings_sparx_table pdfC9 "T" = [] := by decide

/-- C9 amended: in the chosen table, a row contributes a holding only
from its (stripped) second cell: a blank second cell contributes nothing
regardless of the remaining cells, and a non-blank second cell with a
1..10 first-cell rank and no duplicate appends exactly that cell. -/
theorem c9_amended_second_cell_only (holdings : List String)
    (c0 c1 : Option String) (rest : List (Option String)) :
    (pyStripS (cellStr c1) = "" → sparxRow holdings (c0 :: c1 :: rest) = holdings) ∧
    (∀ r, rankMatch (fwS (pyStripS (cellStr c0))) = some r →
      1 ≤ r → r ≤ 10 → pyStripS (cellStr c1) ≠ "" →
      ¬ holdings.contains (pyStripS (cellStr c1)) →
      sparxRow holdings (c0 :: c1 :: rest) =
        holdings ++ [pyStripS (cellStr c1)]) := by
  constructor
  · intro hb
    simp only [sparxRow, hb]
    cases rankMatch (fwS (pyStripS (cellStr c0))) <;> simp
  · intro r hr h1 h10 hne hdup
    simp only [sparxRow]
    rw [hr]
    simp [h1, h10, hne]
    simpa using hdup

/-- C9 amended witness. -/
theorem c9_witness :
    sparxRow [] [some "1", some "", some "AZ"] = [] ∧
    sparxRow [] [some "1", some "トヨタ", some "x"] = ["トヨタ"] := by
  constructor
  · exact (c9_amended_second_cell_only [] (some "1") (some "") [some "AZ"]).1
      (by decide)
  · have h := (c9_amended_second_cell_only [] (some "1") (some "トヨタ")
      [some "x"]).2 1 (by decide) (by decide) (by decide) (by decide) (by decide)
    simpa using h

end ReportSmallStocks
